import Mathlib

/-!
Shallow embedding of the cwtch runtime validation engine.

The repository implements `validate_value(value, type_descriptor)`: a
type-directed coercion engine.  The engine proper lives in the Cython
module `cwtch.core` (built from `ext/core.pyx`), which is not part of the
source tree here; its behavior is modelled below from the specification
and, where the specification and the repository disagree, from the
repository's own test suites (`tests/test_validate.py`, `tests/test_error.py`
are the current suites; `tests/test_cwtch.py` predates a behavior change of
the `str` coercer and of the error format).  The parts of the system that
are present in the source tree are translated directly:
  * `cwtch/metadata.py` — constraint objects (`Strict`, `Ge`, ...), with
    their `before`/`after` hooks;
  * `cwtch/cwtch.py` — the generated `__init__` of a cwtch dataclass
    (`_create_init`): field lookup, `init_alias`, defaults and default
    factories, required-field errors, per-field validation with the field
    name as error path, and the `extra` policy (`"ignore" | "forbid"`).

Python values are modelled by `Value` (floats as exact rationals — no
claim below exercises binary rounding), Python classes by `PyType`, type
descriptors by `Ty`, and `StructuredValidationError` by `VErr`.
-/

/-- Python runtime classes, as far as the claims need them.  `objP cls`
is the class of a cwtch-dataclass instance named `cls`. -/
inductive PyType where
  | noneP : PyType
  | boolP : PyType
  | intP : PyType
  | floatP : PyType
  | strP : PyType
  | listP : PyType
  | dictP : PyType
  | objP : String → PyType
  deriving DecidableEq

/-- Python runtime values.  `vdict` models a mapping source with string
keys (insertion-ordered, as in CPython); `vobj cls fields` models an
instance of the cwtch dataclass named `cls`. -/
inductive Value where
  | vnone : Value
  | vbool : Bool → Value
  | vint : Int → Value
  | vfloat : Rat → Value
  | vstr : String → Value
  | vlist : List Value → Value
  | vdict : List (String × Value) → Value
  | vobj : String → List (String × Value) → Value

/-- Python `type(v)`. -/
def type_of : Value → PyType
  | .vnone => .noneP
  | .vbool _ => .boolP
  | .vint _ => .intP
  | .vfloat _ => .floatP
  | .vstr _ => .strP
  | .vlist _ => .listP
  | .vdict _ => .dictP
  | .vobj cls _ => .objP cls

/-- Python `isinstance(v, tp)` for the modelled classes.  The one
non-trivial subtype relation the claims depend on: `bool` is a subclass
of `int` in Python. -/
def isinstance (v : Value) (tp : PyType) : Bool :=
  type_of v == tp || (type_of v == .boolP && tp == .intP)

/-- A single-quote character (Python quotes names and inputs with it in
error messages). -/
def pyq : String := String.singleton (Char.ofNat 39)

/-- Python `__name__` of a class. -/
def pyname : PyType → String
  | .noneP => "NoneType"
  | .boolP => "bool"
  | .intP => "int"
  | .floatP => "float"
  | .strP => "str"
  | .listP => "list"
  | .dictP => "dict"
  | .objP cls => cls

/-- Python `repr` of a class: `<class ...>`. -/
def cls_repr (tp : PyType) : String :=
  "<class " ++ pyq ++ pyname tp ++ pyq ++ ">"

/-- Value of a list of decimal digits (0 for the empty list). -/
def digits_val (cs : List Char) : Nat :=
  cs.foldl (fun a c => a * 10 + (c.toNat - 48)) 0

/-- A non-empty all-digit run, or `none`.  Models the core of CPython's
base-10 string parsing (surrounding whitespace and underscore separators
are not exercised by any claim and are left out). -/
def dec_digits (cs : List Char) : Option Nat :=
  if cs.isEmpty then none
  else if cs.all Char.isDigit then some (digits_val cs) else none

/-- CPython `int(s)` for a string argument. -/
def int_of_string (s : String) : Option Int :=
  match s.data with
  | '-' :: rest => (dec_digits rest).map (fun n => -(n : Int))
  | '+' :: rest => (dec_digits rest).map (fun n => (n : Int))
  | cs => (dec_digits cs).map (fun n => (n : Int))

/-- Decimal body of a float literal: `digits`, `digits.digits`,
`.digits` or `digits.` (exponents, `inf` and `nan` are not exercised by
any claim). -/
def float_body (cs : List Char) : Option Rat :=
  match cs.span (fun c => c != '.') with
  | (ip, []) => (dec_digits ip).map (fun n => (n : Rat))
  | (ip, _ :: fp) =>
      if fp.contains '.' then none
      else if ip.isEmpty && fp.isEmpty then none
      else if ip.all Char.isDigit && fp.all Char.isDigit then
        some ((digits_val ip : Rat) + (digits_val fp : Rat) / ((10 : Rat) ^ fp.length))
      else none

/-- CPython `float(s)` for a string argument. -/
def float_of_string (s : String) : Option Rat :=
  match s.data with
  | '-' :: rest => (float_body rest).map (fun q => -q)
  | '+' :: rest => float_body rest
  | cs => float_body cs

/-- CPython message of `int("a")`. -/
def int_literal_msg (s : String) : String :=
  "invalid literal for int() with base 10: " ++ pyq ++ s ++ pyq

/-- CPython message of `float("a")`. -/
def float_literal_msg (s : String) : String :=
  "could not convert string to float: " ++ pyq ++ s ++ pyq

/-- The engine's message for a failed `bool` coercion. -/
def bool_err_msg : String := "could not convert value to bool"

/-- The engine's message for a value that is not the none-sentinel. -/
def none_err_msg : String := "value is not a None"

/-- The engine's message for a value of the wrong runtime class. -/
def not_valid_msg (tp : PyType) : String :=
  "value is not a valid " ++ cls_repr tp

/-- Python `str.lower` restricted to ASCII (the bool token lists are
ASCII-only). -/
def ascii_lower (s : String) : String :=
  String.mk (s.data.map (fun c =>
    if 65 ≤ c.toNat && c.toNat ≤ 90 then Char.ofNat (c.toNat + 32) else c))

/-- `bool` coercion (tests/test_validate.py::test_bool): booleans pass
through, integers only 0 and 1, strings via case-insensitive token
lists; everything else is rejected. -/
def bool_of_value (v : Value) : Except String Bool :=
  match v with
  | .vbool b => .ok b
  | .vint i =>
      if i == 1 then .ok true
      else if i == 0 then .ok false
      else .error bool_err_msg
  | .vstr s =>
      if ["true", "1", "y", "t", "yes"].contains (ascii_lower s) then .ok true
      else if ["false", "0", "n", "f", "no"].contains (ascii_lower s) then .ok false
      else .error bool_err_msg
  | _ => .error bool_err_msg

/-- `int` coercion: delegates to native `int(value)`, propagating its
message verbatim (floats truncate toward zero, as `int(float)` does). -/
def int_of_value (v : Value) : Except String Int :=
  match v with
  | .vint i => .ok i
  | .vbool b => .ok (if b then 1 else 0)
  | .vfloat q => .ok (q.num.tdiv (q.den : Int))
  | .vstr s =>
      match int_of_string s with
      | some i => .ok i
      | none => .error (int_literal_msg s)
  | _ =>
      .error ("int() argument must be a string, a bytes-like object or a real number, not "
        ++ pyq ++ pyname (type_of v) ++ pyq)

/-- `float` coercion: delegates to native `float(value)`. -/
def float_of_value (v : Value) : Except String Rat :=
  match v with
  | .vfloat q => .ok q
  | .vint i => .ok (i : Rat)
  | .vbool b => .ok (if b then 1 else 0)
  | .vstr s =>
      match float_of_string s with
      | some q => .ok q
      | none => .error (float_literal_msg s)
  | _ =>
      .error ("float() argument must be a string or a real number, not "
        ++ pyq ++ pyname (type_of v) ++ pyq)

/-- The message `Strict.before` raises. -/
def strict_err_msg (tps : List PyType) : String :=
  "invalid value for " ++ String.intercalate " | " (tps.map cls_repr)

/-- `metadata.py::Strict.before`, after `__post_init__` has flattened the
target type into the list `tps` (a non-union target `T` becomes `[T]`):
return the value unchanged at the first `tp` with
`isinstance(value, tp) and type(value) == tp`, else raise `ValueError`. -/
def strict_before (tps : List PyType) (v : Value) : Except String Value :=
  if tps.any (fun tp => isinstance v tp && (type_of v == tp))
  then .ok v
  else .error (strict_err_msg tps)

/-- `metadata.py::Ge.after`: raise unless `value >= bound` (modelled on
the numeric values the claims exercise). -/
def ge_after (bound : Int) (v : Value) : Except String Value :=
  match v with
  | .vint i => if bound ≤ i then .ok v else .error ("value should be >= " ++ toString bound)
  | .vfloat q => if (bound : Rat) ≤ q then .ok v else .error ("value should be >= " ++ toString bound)
  | _ => .error ("value should be >= " ++ toString bound)

/-- Constraint objects attached through `Annotated[...]`
(`cwtch/metadata.py`); the claims exercise `Strict` and `Ge`. -/
inductive MetaC where
  | strictM : List PyType → MetaC
  | geM : Int → MetaC
  deriving DecidableEq

/-- A constraint's `before` hook (`nop`, i.e. identity, when the class
does not define one). -/
def meta_before (m : MetaC) (v : Value) : Except String Value :=
  match m with
  | .strictM tps => strict_before tps v
  | .geM _ => .ok v

/-- A constraint's `after` hook (`nop` when the class does not define
one). -/
def meta_after (m : MetaC) (v : Value) : Except String Value :=
  match m with
  | .strictM _ => .ok v
  | .geM bound => ge_after bound v

/-- The `extra` policy of a cwtch dataclass
(`cwtch/cwtch.py::dataclass`, parameter
`extra: Unset[Literal["ignore", "forbid"]]`): unknown init keywords are
either dropped silently or rejected.  These two literals are the whole
configuration space the source offers. -/
inductive Extra where
  | ignore : Extra
  | forbid : Extra
  deriving DecidableEq

/-- Non-type field metadata of a cwtch dataclass field
(`cwtch/cwtch.py::Field`): optional default, optional default factory
(modelled by the value it produces), the effective validate flag, and
the optional `init_alias`. -/
structure FldMeta where
  odefault : Option Value
  ofactory : Option Value
  fvalidate : Bool
  oalias : Option String

mutual
/-- Type descriptors, the closed tagged union the dispatcher matches on:
primitive tags, `Any`, `list[T]`, unions, `Annotated[base, metas]` and
composite (cwtch-dataclass) descriptors. -/
inductive Ty where
  | noneT : Ty
  | boolT : Ty
  | intT : Ty
  | floatT : Ty
  | strT : Ty
  | anyT : Ty
  | list : Ty → Ty
  | union : List Ty → Ty
  | annotated : Ty → List MetaC → Ty
  | composite : String → List Fld → Extra → Ty

/-- A declared field of a composite: name, type descriptor and
metadata. -/
inductive Fld where
  | mk : String → Ty → FldMeta → Fld
end

/-- Field name. -/
def fld_name : Fld → String
  | .mk n _ _ => n

/-- Field type descriptor. -/
def fld_ty : Fld → Ty
  | .mk _ t _ => t

/-- Field metadata. -/
def fld_meta : Fld → FldMeta
  | .mk _ _ m => m

/-- A path segment of a structured validation error: a container index
or a mapping/field key. -/
inductive PathSeg where
  | idx : Nat → PathSeg
  | key : String → PathSeg
  deriving DecidableEq

/-- `StructuredValidationError`: expected descriptor, offending input
(absent for composite field-level wrapping, which the source raises with
an elided input), path segments, optional leaf cause, child errors. -/
inductive VErr where
  | mk : Ty → Option Value → List PathSeg → Option String → List VErr → VErr

/-- Expected descriptor of an error node. -/
def VErr.expected : VErr → Ty
  | .mk t _ _ _ _ => t

/-- Offending input of an error node. -/
def VErr.input : VErr → Option Value
  | .mk _ v _ _ _ => v

/-- Path segments of an error node. -/
def VErr.path : VErr → List PathSeg
  | .mk _ _ p _ _ => p

/-- Leaf cause of an error node. -/
def VErr.cause : VErr → Option String
  | .mk _ _ _ c _ => c

/-- Child errors of an error node. -/
def VErr.children : VErr → List VErr
  | .mk _ _ _ _ cs => cs

/-- Run the `before` hooks of the constraints in declaration order,
threading the value; the first raising hook aborts the chain. -/
def before_hooks (ms : List MetaC) (v : Value) : Except String Value :=
  match ms with
  | [] => .ok v
  | m :: rest =>
      match meta_before m v with
      | .ok w => before_hooks rest w
      | .error e => .error e

/-- Run the `after` hooks of the constraints in declaration order,
threading the value; the first raising hook aborts the chain. -/
def after_hooks (ms : List MetaC) (v : Value) : Except String Value :=
  match ms with
  | [] => .ok v
  | m :: rest =>
      match meta_after m v with
      | .ok w => after_hooks rest w
      | .error e => .error e

/-- Modelled from the spec: the union resolver's instance/wildcard
pre-pass, part of the missing `ext/core.pyx`.  The spec's §4.4 describes
only declaration-order dispatch, but the repository's tests
(`tests/test_validate.py::test_union`: `validate_value("1", int | Any)
== "1"`, `validate_value("1", Annotated[int, None] | str) == "1"`) show
that before any coercion is attempted the resolver returns the value
unchanged at the first member that is `Any` or is a bare class equal to
the value's exact runtime class.  Parameterized members (lists, unions,
`Annotated[...]`) do not take part in this pre-pass. -/
def union_fast_match (v : Value) (m : Ty) : Bool :=
  match m with
  | .anyT => true
  | .noneT => type_of v == .noneP
  | .boolT => type_of v == .boolP
  | .intT => type_of v == .intP
  | .floatT => type_of v == .floatP
  | .strT => type_of v == .strP
  | .composite n _ _ => type_of v == .objP n
  | _ => false

/-- Message of the `TypeError` raised by a generated `__init__` for a
missing required field (`cwtch/cwtch.py::_create_init`). -/
def missing_arg_msg (cls fn : String) : String :=
  cls ++ ".__init__() missing required positional argument: " ++ pyq ++ fn ++ pyq

/-- Message of the `TypeError` raised by a generated `__init__` under
`extra="forbid"` for an unknown keyword (`cwtch/cwtch.py::_create_init`). -/
def unexpected_kw_msg (cls k : String) : String :=
  cls ++ ".__init__() got an unexpected keyword argument " ++ pyq ++ k ++ pyq

/-- Source entries that do not bind a declared field name: the
`**__extra_kwds` of the generated `__init__`. -/
def extra_entries (names : List String) (entries : List (String × Value)) :
    List (String × Value) :=
  entries.filter (fun p => !(names.contains p.1))

/-- Message of the `NameError` CPython raises when evaluating an
unbound identifier. -/
def name_err_msg (a : String) : String :=
  "name " ++ pyq ++ a ++ pyq ++ " is not defined"

/-- The guard the generated `__init__` runs under `extra="forbid"`
(`cwtch/cwtch.py::_create_init`, lines 691-702), returning the message
of the exception it raises, if any.  The generated text is

    if __extra_kwds:
        allowed_extra_field_names = {<the init_alias names, unquoted>}
        for k in __extra_kwds:
            if k not in allowed_extra_field_names:
                raise TypeError(... unexpected keyword argument ...)

With no extra keywords the guard does nothing.  With no `init_alias`
among the fields the emitted literal is the empty `{}` — an empty dict
— so every extra keyword is unexpected and the first one, in source
order, is named in the raised `TypeError`.  With at least one
`init_alias` the alias names are interpolated *unquoted* into the set
literal, so evaluating it raises `NameError` on the first alias (the
aliases of the claims and tests are not otherwise bound in the
generated function's scope); the intended allow-the-alias behavior is
never reached.  How the missing `ext/core.pyx` surfaces that
`NameError` cannot be read; the model records it as an error carrying
the `NameError` message, and no theorem depends on that region. -/
def forbid_fail (cls : String) (names aliases : List String)
    (entries : List (String × Value)) : Option String :=
  match extra_entries names entries with
  | [] => none
  | (k, _) :: _ =>
      match aliases with
      | [] => some (unexpected_kw_msg cls k)
      | a :: _ => some (name_err_msg a)

/-- Field value lookup of the generated `__init__`: by field name among
the source entries, then — if the field declares an `init_alias` — by
that alias among the extra keywords. -/
def field_lookup (names : List String) (entries : List (String × Value))
    (fn : String) (oalias : Option String) : Option Value :=
  match entries.lookup fn with
  | some w => some w
  | none =>
      match oalias with
      | some a => (extra_entries names entries).lookup a
      | none => none

/-- The raw (pre-validation) value a field receives in the generated
`__init__`: the looked-up source value, else the default, else the
default factory's product; `none` means the field is missing and
required. -/
def field_raw (names : List String) (entries : List (String × Value))
    (fn : String) (fm : FldMeta) : Option Value :=
  match field_lookup names entries fn fm.oalias with
  | some w => some w
  | none =>
      match fm.odefault with
      | some d => some d
      | none => fm.ofactory

mutual
/-- Modelled from the spec: `validate_value(value, type_descriptor)`,
the dispatcher of the missing `ext/core.pyx` (§4.1–§4.5 of the spec),
with two deviations the repository's current tests pin down:
  * `str` accepts only values of runtime class `str`
    (`tests/test_validate.py::test_str` rejects `None`, `0`, `True`);
  * a `before` hook's exception propagates, wrapped as a validation
    error (`tests/test_cwtch.py::test_strict_int` expects
    `validate_value("1", Annotated[int, Strict(int)])` to raise the
    hook's `invalid value for ...` message);
  * unions run the instance/wildcard pre-pass `union_fast_match` before
    declaration-order dispatch.
Composite handling follows the in-tree `cwtch/cwtch.py::_create_init`. -/
def validate_value (v : Value) (t : Ty) : Except VErr Value :=
  match t with
  | .anyT => .ok v
  | .noneT =>
      match v with
      | .vnone => .ok .vnone
      | _ => .error (.mk .noneT (some v) [] (some none_err_msg) [])
  | .boolT =>
      match bool_of_value v with
      | .ok b => .ok (.vbool b)
      | .error msg => .error (.mk .boolT (some v) [] (some msg) [])
  | .intT =>
      match int_of_value v with
      | .ok i => .ok (.vint i)
      | .error msg => .error (.mk .intT (some v) [] (some msg) [])
  | .floatT =>
      match float_of_value v with
      | .ok q => .ok (.vfloat q)
      | .error msg => .error (.mk .floatT (some v) [] (some msg) [])
  | .strT =>
      match v with
      | .vstr s => .ok (.vstr s)
      | _ => .error (.mk .strT (some v) [] (some (not_valid_msg .strP)) [])
  | .list elT =>
      match v with
      | .vlist xs =>
          match validate_items xs elT 0 with
          | .ok ws => .ok (.vlist ws)
          | .error (i, e) => .error (.mk (.list elT) (some v) [PathSeg.idx i] none [e])
      | _ => .error (.mk (.list elT) (some v) [] (some (not_valid_msg .listP)) [])
  | .union ms =>
      if ms.any (fun m => union_fast_match v m) then .ok v
      else
        match validate_members v ms with
        | .ok w => .ok w
        | .error es => .error (.mk (.union ms) (some v) [] none es)
  | .annotated base metas =>
      match before_hooks metas v with
      | .error msg => .error (.mk (.annotated base metas) (some v) [] (some msg) [])
      | .ok v2 =>
          match validate_value v2 base with
          | .error e => .error e
          | .ok w =>
              match after_hooks metas w with
              | .error msg => .error (.mk (.annotated base metas) (some v) [] (some msg) [])
              | .ok w2 => .ok w2
  | .composite n fds ex =>
      match v with
      | .vobj cls ofs =>
          if cls == n then .ok (.vobj cls ofs)
          else .error (.mk (.composite n fds ex) (some v) [] (some (not_valid_msg (.objP n))) [])
      | .vdict entries =>
          match ex, forbid_fail n (fds.map fld_name)
              (fds.filterMap (fun f => (fld_meta f).oalias)) entries with
          | .forbid, some msg =>
              .error (.mk (.composite n fds ex) (some v) [] (some msg) [])
          | _, _ =>
              match validate_fields (Ty.composite n fds ex) n (fds.map fld_name) entries fds with
              | .ok ws => .ok (.vobj n ws)
              | .error e => .error e
      | _ => .error (.mk (.composite n fds ex) (some v) [] (some (not_valid_msg (.objP n))) [])
termination_by (sizeOf t, 0)

/-- Modelled from the spec: element loop of the `list[T]` coercer of the
missing `ext/core.pyx` (§4.3): source order, fail-fast; a failure
reports the element's index. -/
def validate_items (xs : List Value) (elT : Ty) (i : Nat) :
    Except (Nat × VErr) (List Value) :=
  match xs with
  | [] => .ok []
  | x :: rest =>
      match validate_value x elT with
      | .ok w =>
          match validate_items rest elT (i + 1) with
          | .ok ws => .ok (w :: ws)
          | .error p => .error p
      | .error e => .error (i, e)
termination_by (sizeOf elT, 1 + xs.length)

/-- Modelled from the spec: coercion pass of the union resolver of the
missing `ext/core.pyx` (§4.4): members in declaration order, first
success wins, all failures are collected in order. -/
def validate_members (v : Value) (ms : List Ty) : Except (List VErr) Value :=
  match ms with
  | [] => .error []
  | m :: rest =>
      match validate_value v m with
      | .ok w => .ok w
      | .error e =>
          match validate_members v rest with
          | .ok w => .ok w
          | .error es => .error (e :: es)
termination_by (sizeOf ms, 0)

/-- Field loop of the generated `__init__`
(`cwtch/cwtch.py::_create_init`), driven by the declared fields in
order: look the value up by name or `init_alias`, fall back to the
default, then to the default factory, raise a required-field error
(placed, per §4.5 of the spec, under the field's name as path segment)
when none applies; validate the value when the field's effective
validate flag is set, wrapping a failure with the field's name as path
segment; `ct` is the composite descriptor the errors cite. -/
def validate_fields (ct : Ty) (cls : String) (names : List String)
    (entries : List (String × Value)) (fds : List Fld) :
    Except VErr (List (String × Value)) :=
  match fds with
  | [] => .ok []
  | .mk fn ft fm :: rest =>
      match field_raw names entries fn fm with
      | none => .error (.mk ct none [PathSeg.key fn] (some (missing_arg_msg cls fn)) [])
      | some w =>
          match (if fm.fvalidate then validate_value w ft else .ok w) with
          | .error e => .error (.mk ct none [PathSeg.key fn] none [e])
          | .ok w2 =>
              match validate_fields ct cls names entries rest with
              | .ok ws => .ok ((fn, w2) :: ws)
              | .error e => .error e
termination_by (sizeOf fds, 0)
end

/-- A member matched by the union pre-pass would also succeed under full
dispatch (the pre-pass only ever skips work, it cannot turn a failing
union into a succeeding one). -/
lemma fast_match_sound (v : Value) (m : Ty) (h : union_fast_match v m = true) :
    ∃ w, validate_value v m = .ok w := by
  cases m with
  | anyT => exact ⟨v, by simp [validate_value]⟩
  | noneT =>
      cases v <;> simp [union_fast_match, type_of] at h
      exact ⟨.vnone, by simp [validate_value]⟩
  | boolT =>
      cases v <;> simp [union_fast_match, type_of] at h
      next b => exact ⟨.vbool b, by simp [validate_value, bool_of_value]⟩
  | intT =>
      cases v <;> simp [union_fast_match, type_of] at h
      next i => exact ⟨.vint i, by simp [validate_value, int_of_value]⟩
  | floatT =>
      cases v <;> simp [union_fast_match, type_of] at h
      next q => exact ⟨.vfloat q, by simp [validate_value, float_of_value]⟩
  | strT =>
      cases v <;> simp [union_fast_match, type_of] at h
      next s => exact ⟨.vstr s, by simp [validate_value]⟩
  | list elT => simp [union_fast_match] at h
  | union ms => simp [union_fast_match] at h
  | annotated base metas => simp [union_fast_match] at h
  | composite n fds ex =>
      cases v with
      | vobj cls ofs =>
          simp [union_fast_match, type_of] at h
          exact ⟨.vobj cls ofs, by simp [validate_value, h]⟩
      | vnone => simp [union_fast_match, type_of] at h
      | vbool b => simp [union_fast_match, type_of] at h
      | vint i => simp [union_fast_match, type_of] at h
      | vfloat q => simp [union_fast_match, type_of] at h
      | vstr s => simp [union_fast_match, type_of] at h
      | vlist xs => simp [union_fast_match, type_of] at h
      | vdict es => simp [union_fast_match, type_of] at h

/-- If every member's dispatch fails, no member is matched by the union
pre-pass. -/
lemma fail_no_fast_match (v : Value) {ms : List Ty} {es : List VErr}
    (h : List.Forall₂ (fun m e => validate_value v m = .error e) ms es) :
    ms.any (fun m => union_fast_match v m) = false := by
  induction h with
  | nil => rfl
  | @cons m e ms2 es2 h1 _ ih =>
      simp only [List.any_cons, ih, Bool.or_false]
      cases hp : union_fast_match v m with
      | false => rfl
      | true =>
          obtain ⟨w, hw⟩ := fast_match_sound v m hp
          rw [hw] at h1
          exact absurd h1 (by simp)

/-- The coercion pass returns the failures of all members, in member
order, when every member fails. -/
lemma members_fail (v : Value) {ms : List Ty} {es : List VErr}
    (h : List.Forall₂ (fun m e => validate_value v m = .error e) ms es) :
    validate_members v ms = .error es := by
  induction h with
  | nil => simp [validate_members]
  | cons h1 _ ih => simp [validate_members, h1, ih]

/-- The coercion pass skips failing members and returns the first
success. -/
lemma members_skip_failures (v : Value) (pre rest : List Ty) (w : Value)
    (hpre : ∀ m ∈ pre, ∃ e, validate_value v m = .error e)
    (h : validate_members v rest = .ok w) :
    validate_members v (pre ++ rest) = .ok w := by
  induction pre with
  | nil => simpa using h
  | cons m pre2 ih =>
      obtain ⟨e, he⟩ := hpre m (by simp)
      have ih2 := ih (fun m2 hm2 => hpre m2 (by simp [hm2]))
      simp [validate_members, he, ih2]

/-- C1 (counterexample): the claim says the union resolver tries members
in declaration order via dispatch and returns the result of the first
member whose validation succeeds.  For input `"1"` against `int | Any`,
dispatching the first member `int` succeeds with the coerced value `1`,
yet the union returns the later wildcard's result — the string `"1"`
unchanged (as the repository's tests pin:
`tests/test_validate.py::test_union`, `validate_value("1", int | Any)
== "1"`).  So the claim is false at this input. -/
theorem union_first_success_counterexample :
    validate_value (.vstr "1") Ty.intT = .ok (.vint 1) ∧
    validate_value (.vstr "1") (Ty.union [Ty.intT, Ty.anyT]) = .ok (.vstr "1") ∧
    Value.vstr "1" ≠ Value.vint 1 := by
  refine ⟨?_, ?_, by simp⟩
  · simp [validate_value, int_of_value, show int_of_string "1" = some 1 from rfl]
  · simp [validate_value, union_fast_match, type_of]

/-- C1 (amended): union resolution is two-phase.  Phase 1 scans the
members in declaration order and returns the value unchanged at the
first member that is `Any` or a bare class equal to the value's exact
runtime class; only when phase 1 matches nothing are the members
dispatched in declaration order, the first success providing the
result.  Conjunct 1 states the phase-1 effect: whenever any member
pre-matches the value, the union returns the value unchanged, so a
reachable `Any` short-circuits every other member's coercion.
Conjuncts 2 and 3 pin down exactly what pre-matches: `Any` always; a
bare primitive class or a composite class exactly when the value's
runtime class equals it; parameterized members (`list[...]`, nested
unions, `Annotated[...]`) never.  Conjunct 4 is the phase-2
declaration-order dispatch. -/
theorem union_resolution_two_phase :
    (∀ (v : Value) (ms : List Ty) (m : Ty),
      m ∈ ms → union_fast_match v m = true →
      validate_value v (Ty.union ms) = .ok v) ∧
    (∀ v : Value, union_fast_match v Ty.anyT = true) ∧
    (∀ (v : Value) (n : String) (fds : List Fld) (ex : Extra)
        (elT base : Ty) (ms2 : List Ty) (metas : List MetaC),
      union_fast_match v Ty.noneT = (type_of v == PyType.noneP) ∧
      union_fast_match v Ty.boolT = (type_of v == PyType.boolP) ∧
      union_fast_match v Ty.intT = (type_of v == PyType.intP) ∧
      union_fast_match v Ty.floatT = (type_of v == PyType.floatP) ∧
      union_fast_match v Ty.strT = (type_of v == PyType.strP) ∧
      union_fast_match v (Ty.composite n fds ex) = (type_of v == PyType.objP n) ∧
      union_fast_match v (Ty.list elT) = false ∧
      union_fast_match v (Ty.union ms2) = false ∧
      union_fast_match v (Ty.annotated base metas) = false) ∧
    (∀ (v : Value) (pre : List Ty) (m : Ty) (post : List Ty) (w : Value),
      (∀ m2 ∈ pre ++ m :: post, union_fast_match v m2 = false) →
      (∀ m2 ∈ pre, ∃ e, validate_value v m2 = .error e) →
      validate_value v m = .ok w →
      validate_value v (Ty.union (pre ++ m :: post)) = .ok w) := by
  refine ⟨?_, fun v => rfl, ?_, ?_⟩
  · intro v ms m hm hfm
    have hany : ms.any (fun m2 => union_fast_match v m2) = true :=
      List.any_eq_true.mpr ⟨m, hm, hfm⟩
    simp [validate_value, hany]
  · intro v n fds ex elT base ms2 metas
    exact ⟨rfl, rfl, rfl, rfl, rfl, rfl, rfl, rfl, rfl⟩
  · intro v pre m post w hfm hpre hm
    have hany : (pre ++ m :: post).any (fun m2 => union_fast_match v m2) = false := by
      simp only [List.any_eq_false]
      intro m2 hm2
      simp [hfm m2 hm2]
    have hrest : validate_members v (m :: post) = .ok w := by
      simp [validate_members, hm]
    have hall := members_skip_failures v pre (m :: post) w hpre hrest
    simp [validate_value, hany, hall]

/-- C1 (witness): the phases at concrete inputs.  `"1"` against
`Annotated[int, None] | str` (an annotated member with no constraints,
then the bare class `str`) is returned unchanged because `str`
pre-matches its runtime class — the behavior the repository pins with
`validate_value("1", Annotated[int, None] | str) == "1"`; `True`
against `str | Any` is returned unchanged by the wildcard; and `1`
against `str | float` passes neither phase-1 test, fails `str`, and is
coerced by `float` to `1.0`. -/
theorem union_resolution_two_phase_witness :
    validate_value (.vstr "1") (Ty.union [Ty.annotated Ty.intT [], Ty.strT]) =
      .ok (.vstr "1") ∧
    validate_value (.vbool true) (Ty.union [Ty.strT, Ty.anyT]) = .ok (.vbool true) ∧
    validate_value (.vint 1) (Ty.union [Ty.strT, Ty.floatT]) = .ok (.vfloat 1) := by
  refine ⟨?_, ?_, ?_⟩
  · exact union_resolution_two_phase.1 (.vstr "1") [Ty.annotated Ty.intT [], Ty.strT]
      Ty.strT (by simp) rfl
  · exact union_resolution_two_phase.1 (.vbool true) [Ty.strT, Ty.anyT] Ty.anyT
      (by simp) rfl
  · refine union_resolution_two_phase.2.2.2 (.vint 1) [Ty.strT] Ty.floatT [] (.vfloat 1)
      ?_ ?_ (by simp [validate_value, float_of_value])
    · intro m2 hm2
      simp only [List.cons_append, List.nil_append, List.mem_cons, List.not_mem_nil,
        or_false] at hm2
      rcases hm2 with rfl | rfl <;> rfl
    · intro m2 hm2
      simp only [List.mem_singleton] at hm2
      subst hm2
      exact ⟨.mk Ty.strT (some (.vint 1)) [] (some (not_valid_msg .strP)) [],
        by simp [validate_value]⟩

/-- C2 (confirmed): when validation of `v` fails against every union
member, the union raises a single structured error whose children are
exactly the per-member failures, in member declaration order. -/
theorem union_exhaustion_aggregates (v : Value) (ms : List Ty) (es : List VErr)
    (h : List.Forall₂ (fun m e => validate_value v m = .error e) ms es) :
    validate_value v (Ty.union ms) =
      .error (.mk (Ty.union ms) (some v) [] none es) := by
  simp [validate_value, fail_no_fast_match v h, members_fail v h]

/-- C2 (witness): `validate("a", int | float)` raises with exactly two
child errors — the `int` failure first, the `float` failure second,
each carrying the native parser's message. -/
theorem union_exhaustion_aggregates_witness :
    validate_value (.vstr "a") (Ty.union [Ty.intT, Ty.floatT]) =
      .error (.mk (Ty.union [Ty.intT, Ty.floatT]) (some (.vstr "a")) [] none
        [.mk Ty.intT (some (.vstr "a")) [] (some (int_literal_msg "a")) [],
         .mk Ty.floatT (some (.vstr "a")) [] (some (float_literal_msg "a")) []]) :=
  union_exhaustion_aggregates (.vstr "a") [Ty.intT, Ty.floatT] _
    (List.Forall₂.cons
      (by simp [validate_value, int_of_value, show int_of_string "a" = none from rfl])
      (List.Forall₂.cons
        (by simp [validate_value, float_of_value, show float_of_string "a" = none from rfl])
        List.Forall₂.nil))

/-- The element loop validates in source order and stops at the first
failing element, reporting its index (offset by the running index
`i`). -/
lemma items_fail_at_first (elT : Ty) (pre ws : List Value) (x : Value)
    (rest : List Value) (e : VErr)
    (hpre : List.Forall₂ (fun y w => validate_value y elT = .ok w) pre ws)
    (hx : validate_value x elT = .error e) :
    ∀ i : Nat, validate_items (pre ++ x :: rest) elT i = .error (i + pre.length, e) := by
  induction hpre with
  | nil => intro i; simp [validate_items, hx]
  | @cons y w pre2 ws2 h1 _ ih =>
      intro i
      have ih2 := ih (i + 1)
      simp only [List.cons_append, validate_items, h1, ih2, List.length_cons]
      have : i + 1 + pre2.length = i + (pre2.length + 1) := by omega
      rw [this]

/-- C3 (confirmed): `list[T]` validation proceeds in source order and
the first element-level failure aborts the whole container — the
elements after it are never consulted and no aggregate is built; the
raised error carries the failing element's index as its only path
segment and the element's failure (with the native parser's message as
leaf cause) as its only child.  Concretely,
`validate([0, 1, "a"], list[int])` raises with path `[2]` and leaf
cause `invalid literal for int() with base 10: 'a'`. -/
theorem list_fail_fast :
    (∀ (elT : Ty) (pre ws : List Value) (x : Value) (rest : List Value) (e : VErr),
      List.Forall₂ (fun y w => validate_value y elT = .ok w) pre ws →
      validate_value x elT = .error e →
      validate_value (.vlist (pre ++ x :: rest)) (Ty.list elT) =
        .error (.mk (Ty.list elT) (some (.vlist (pre ++ x :: rest)))
          [PathSeg.idx pre.length] none [e])) ∧
    validate_value (.vlist [.vint 0, .vint 1, .vstr "a"]) (Ty.list Ty.intT) =
      .error (.mk (Ty.list Ty.intT) (some (.vlist [.vint 0, .vint 1, .vstr "a"]))
        [PathSeg.idx 2] none
        [.mk Ty.intT (some (.vstr "a")) [] (some (int_literal_msg "a")) []]) := by
  constructor
  · intro elT pre ws x rest e hpre hx
    have h0 := items_fail_at_first elT pre ws x rest e hpre hx 0
    simp only [Nat.zero_add] at h0
    simp [validate_value, h0]
  · simp [validate_value, validate_items, int_of_value,
      show int_of_string "a" = none from rfl]

/-- C3 (witness): the general fail-fast statement applied to a
singleton failing list — `validate(["b"], list[int])` aborts at index
0 with the parser's message, regardless of (absent) later elements. -/
theorem list_fail_fast_witness :
    validate_value (.vlist [.vstr "b"]) (Ty.list Ty.intT) =
      .error (.mk (Ty.list Ty.intT) (some (.vlist [.vstr "b"])) [PathSeg.idx 0] none
        [.mk Ty.intT (some (.vstr "b")) [] (some (int_literal_msg "b")) []]) :=
  list_fail_fast.1 Ty.intT [] [] (.vstr "b") [] _ List.Forall₂.nil
    (by simp [validate_value, int_of_value, show int_of_string "b" = none from rfl])

/-- C4 (counterexample): the claim says an exception raised by a
constraint's `before` hook is never propagated to the caller — that
validation silently continues with the pre-hook value.  For input
`"1"` against `Annotated[int, Strict(int)]` the `Strict.before` hook
(`cwtch/metadata.py`) raises `invalid value for <class 'int'>`; had that
failure been swallowed, base `int` coercion of `"1"` would then succeed
with `1` (second conjunct), but validation in fact raises the hook's
message (first conjunct) — exactly what the repository's test
`tests/test_cwtch.py::TestTypes::test_strict_int` asserts. -/
theorem before_hook_swallow_counterexample :
    validate_value (.vstr "1") (Ty.annotated Ty.intT [MetaC.strictM [PyType.intP]]) =
      .error (.mk (Ty.annotated Ty.intT [MetaC.strictM [PyType.intP]]) (some (.vstr "1")) []
        (some (strict_err_msg [PyType.intP])) []) ∧
    validate_value (.vstr "1") Ty.intT = .ok (.vint 1) := by
  constructor
  · simp [validate_value, before_hooks, meta_before, strict_before, isinstance, type_of]
  · simp [validate_value, int_of_value, show int_of_string "1" = some 1 from rfl]

/-- C4 (amended): an exception raised by a constraint's `before` hook
IS propagated to the caller of validate: it surfaces as a validation
error whose expected type is the annotated descriptor and whose leaf
cause is the hook's message, and the inner descriptor's base coercion
is never reached.  (Advisory hooks such as `JsonLoads` obtain
fall-back behavior by catching their own exceptions inside the hook
body, not through the engine.) -/
theorem before_hook_failure_propagates (v : Value) (base : Ty) (metas : List MetaC)
    (msg : String) (h : before_hooks metas v = .error msg) :
    validate_value v (Ty.annotated base metas) =
      .error (.mk (Ty.annotated base metas) (some v) [] (some msg) []) := by
  simp [validate_value, h]

/-- C4 (witness): a failing `Strict(int).before` on `None` surfaces its
message through validation against `Annotated[int, Strict(int)]`. -/
theorem before_hook_failure_propagates_witness :
    validate_value .vnone (Ty.annotated Ty.intT [MetaC.strictM [PyType.intP]]) =
      .error (.mk (Ty.annotated Ty.intT [MetaC.strictM [PyType.intP]]) (some .vnone) []
        (some (strict_err_msg [PyType.intP])) []) :=
  before_hook_failure_propagates .vnone Ty.intT [MetaC.strictM [PyType.intP]]
    (strict_err_msg [PyType.intP])
    (by simp [before_hooks, meta_before, strict_before, isinstance, type_of])

/-- C5 (counterexample): the claim says the `str` coercer accepts any
value and stringifies it, never raising.  It raises on the integer `0`
(as the repository's current tests pin:
`tests/test_validate.py::test_str` expects `validate_value(0, str)` to
raise `value is not a valid <class 'str'>`). -/
theorem str_permissive_counterexample :
    validate_value (.vint 0) Ty.strT =
      .error (.mk Ty.strT (some (.vint 0)) [] (some (not_valid_msg .strP)) []) := by
  simp [validate_value]

/-- C5 (amended): the `str` coercer accepts exactly the values whose
runtime class is `str`, returning them unchanged; every other input —
`None`, ints, bools, containers — raises
`value is not a valid <class 'str'>`. -/
theorem str_accepts_exactly_strings :
    (∀ s : String, validate_value (.vstr s) Ty.strT = .ok (.vstr s)) ∧
    (∀ v : Value, type_of v ≠ PyType.strP →
      validate_value v Ty.strT =
        .error (.mk Ty.strT (some v) [] (some (not_valid_msg .strP)) [])) := by
  constructor
  · intro s; simp [validate_value]
  · intro v h
    cases v
    case vstr s => exact absurd rfl h
    all_goals simp [validate_value]

/-- C5 (witness): `"a"` passes through unchanged; `None` raises. -/
theorem str_accepts_exactly_strings_witness :
    validate_value (.vstr "a") Ty.strT = .ok (.vstr "a") ∧
    validate_value .vnone Ty.strT =
      .error (.mk Ty.strT (some .vnone) [] (some (not_valid_msg .strP)) []) :=
  ⟨str_accepts_exactly_strings.1 "a",
   str_accepts_exactly_strings.2 .vnone (by simp [type_of])⟩

/-- C6 (counterexample): the claim maps the accepted inputs `1`, `0`,
`"yes"`, `"no"` to `True`, `True`, `True`, `False` respectively — i.e.
it asserts `validate(0, bool)` yields `True`.  It yields `False`:
integer `0` is on the falsy side of the allow-list, as the spec's own
§4.2 token table and `tests/test_validate.py::test_bool` agree. -/
theorem bool_zero_counterexample :
    validate_value (.vint 0) Ty.boolT = .ok (.vbool false) ∧
    Value.vbool false ≠ Value.vbool true := by
  constructor
  · simp [validate_value, bool_of_value]
  · simp

/-- C6 (amended): the `bool` coercion boundary — the out-of-range
integers `2` and `-1` both raise (they are rejected, not truncated),
while `1`, `0`, `"yes"`, `"no"` succeed as `True`, `False`, `True`,
`False` respectively. -/
theorem bool_coercion_boundary :
    validate_value (.vint 2) Ty.boolT =
      .error (.mk Ty.boolT (some (.vint 2)) [] (some bool_err_msg) []) ∧
    validate_value (.vint (-1)) Ty.boolT =
      .error (.mk Ty.boolT (some (.vint (-1))) [] (some bool_err_msg) []) ∧
    validate_value (.vint 1) Ty.boolT = .ok (.vbool true) ∧
    validate_value (.vint 0) Ty.boolT = .ok (.vbool false) ∧
    validate_value (.vstr "yes") Ty.boolT = .ok (.vbool true) ∧
    validate_value (.vstr "no") Ty.boolT = .ok (.vbool false) := by
  refine ⟨?_, ?_, ?_, ?_, ?_, ?_⟩ <;>
    simp [validate_value, bool_of_value, show ascii_lower "yes" = "yes" from rfl,
      show ascii_lower "no" = "no" from rfl]

/-- C7 (confirmed): a value that is already an instance of the exact
composite class named by a `Composite` descriptor is returned as-is by
validation, with no per-field re-validation — the statement quantifies
over arbitrary stored field values, including ones that would fail
their field descriptors, and over arbitrary field declarations. -/
theorem composite_identity_preserving (n : String) (fds : List Fld) (ex : Extra)
    (ofs : List (String × Value)) :
    validate_value (.vobj n ofs) (Ty.composite n fds ex) = .ok (.vobj n ofs) := by
  simp [validate_value]

/-- The composite of claim C8: field `i : int`, required (no default,
no factory), and field `s : str` with default `"s"`. -/
def comp_m : Ty :=
  Ty.composite "M"
    [Fld.mk "i" Ty.intT ⟨none, none, true, none⟩,
     Fld.mk "s" Ty.strT ⟨some (.vstr "s"), none, true, none⟩] .ignore

/-- A composite whose single field `x : int` has a default factory
producing `7`. -/
def comp_f : Ty :=
  Ty.composite "F" [Fld.mk "x" Ty.intT ⟨none, some (.vint 7), true, none⟩] .ignore

/-- C8 (confirmed): for the composite `{i: int (required), s: str =
"s"}`, validating the empty mapping raises a required-field error
carrying `i` as its path segment (and naming `i` in the `__init__`
message), while validating `{"i": "1"}` succeeds with `i = 1` and the
default `s = "s"`; a field with a default factory and no source entry
takes the factory's product instead of raising. -/
theorem required_field_detection :
    validate_value (.vdict []) comp_m =
      .error (.mk comp_m none [PathSeg.key "i"] (some (missing_arg_msg "M" "i")) []) ∧
    validate_value (.vdict [("i", .vstr "1")]) comp_m =
      .ok (.vobj "M" [("i", .vint 1), ("s", .vstr "s")]) ∧
    validate_value (.vdict []) comp_f = .ok (.vobj "F" [("x", .vint 7)]) := by
  refine ⟨?_, ?_, ?_⟩ <;>
    simp [comp_m, comp_f, validate_value, validate_fields, field_raw, field_lookup,
      List.lookup, extra_entries, forbid_fail, fld_name, fld_meta, int_of_value,
      show int_of_string "1" = some 1 from rfl]

/-- A successful field loop produces exactly the declared field names,
in declaration order — extra source keys never appear in the result. -/
lemma validate_fields_names (ct : Ty) (cls : String) (names : List String)
    (entries : List (String × Value)) :
    ∀ (fds : List Fld) (ws : List (String × Value)),
      validate_fields ct cls names entries fds = .ok ws →
      ws.map Prod.fst = fds.map fld_name := by
  intro fds
  induction fds with
  | nil =>
      intro ws h
      simp [validate_fields] at h
      simp [← h]
  | cons f rest ih =>
      obtain ⟨fn, ft, fm⟩ := f
      intro ws h
      cases hraw : field_raw names entries fn fm with
      | none => simp [validate_fields, hraw] at h
      | some w =>
          cases hv : (if fm.fvalidate then validate_value w ft
              else (Except.ok w : Except VErr Value)) with
          | error e => simp [validate_fields, hraw, hv] at h
          | ok w2 =>
              cases hr : validate_fields ct cls names entries rest with
              | error e => simp [validate_fields, hraw, hv, hr] at h
              | ok ws2 =>
                  simp [validate_fields, hraw, hv, hr] at h
                  subst h
                  simp [fld_name, ih ws2 hr]

/-- C9 (counterexample): the claim says the composite coercer supports
three extra-key policies — ignore, forbid, and allow-and-retain.  The
source's configuration flag (`cwtch/cwtch.py::dataclass`, parameter
`extra: Unset[Literal["ignore", "forbid"]]`, mirrored by the two-element
type `Extra`) offers exactly two.  Enumerating both on a composite with
no declared fields and the input `{"x": 1}`: under `ignore` the extra
key is dropped, under `forbid` it raises — under no available policy is
the extra retained. -/
theorem extra_keys_policy_counterexample :
    validate_value (.vdict [("x", .vint 1)]) (Ty.composite "X" [] .ignore) =
      .ok (.vobj "X" []) ∧
    validate_value (.vdict [("x", .vint 1)]) (Ty.composite "X" [] .forbid) =
      .error (.mk (Ty.composite "X" [] .forbid) (some (.vdict [("x", .vint 1)])) []
        (some (unexpected_kw_msg "X" "x")) []) := by
  constructor <;>
    simp [validate_value, validate_fields, forbid_fail, extra_entries]

/-- C9 (amended): the composite coercer supports exactly the two
extra-key policies of the source's `extra` flag, and neither retains an
extra key.  Under `forbid`, for a composite whose fields declare no
`init_alias`, an input whose first entry's key is not a declared field
name raises an error naming that unknown key; under `ignore`, a
successful validation produces exactly the declared field names — extra
source keys are dropped without error.  (The claimed acceptance of
`init_alias` keys under `forbid` does not exist in the source: the
generated guard interpolates the alias names unquoted into a set
literal — `cwtch/cwtch.py` line 695 — so any composite with an aliased
field raises `NameError` on every extra keyword there; see
`forbid_fail`.  The theorem therefore carries a no-alias hypothesis.) -/
theorem extra_keys_policy_two_policies :
    (∀ (n : String) (fds : List Fld) (k : String) (w : Value)
        (rest : List (String × Value)),
      (∀ f ∈ fds, fld_name f ≠ k) →
      (∀ f ∈ fds, (fld_meta f).oalias = none) →
      validate_value (.vdict ((k, w) :: rest)) (Ty.composite n fds .forbid) =
        .error (.mk (Ty.composite n fds .forbid) (some (.vdict ((k, w) :: rest))) []
          (some (unexpected_kw_msg n k)) [])) ∧
    (∀ (n : String) (fds : List Fld) (entries ofs : List (String × Value)),
      validate_value (.vdict entries) (Ty.composite n fds .ignore) = .ok (.vobj n ofs) →
      ofs.map Prod.fst = fds.map fld_name) := by
  constructor
  · intro n fds k w rest hk1 hk2
    have halias : fds.filterMap (fun f => (fld_meta f).oalias) = [] :=
      List.filterMap_eq_nil_iff.mpr hk2
    have hguard : forbid_fail n (fds.map fld_name)
        (fds.filterMap (fun f => (fld_meta f).oalias)) ((k, w) :: rest) =
          some (unexpected_kw_msg n k) := by
      rw [halias]
      have hnk : ¬ ∃ a ∈ fds, fld_name a = k := by
        rintro ⟨a, ha, hak⟩
        exact hk1 a ha hak
      simp [forbid_fail, extra_entries, hnk]
    rw [validate_value]
    simp [hguard]
  · intro n fds entries ofs h
    cases hfu : forbid_fail n (fds.map fld_name)
        (fds.filterMap (fun f => (fld_meta f).oalias)) entries with
    | none =>
        simp [validate_value, hfu] at h
        cases hr : validate_fields (Ty.composite n fds .ignore) n (fds.map fld_name)
            entries fds with
        | error e => rw [hr] at h; simp at h
        | ok ws =>
            rw [hr] at h
            simp at h
            rw [← h]
            exact validate_fields_names _ _ _ _ fds ws hr
    | some msg =>
        simp [validate_value, hfu] at h
        cases hr : validate_fields (Ty.composite n fds .ignore) n (fds.map fld_name)
            entries fds with
        | error e => rw [hr] at h; simp at h
        | ok ws =>
            rw [hr] at h
            simp at h
            rw [← h]
            exact validate_fields_names _ _ _ _ fds ws hr

/-- C9 (witness): the amended statement at concrete inputs — the
unknown key `"z"` raises under `forbid` on a composite with one field
`i`, and under `ignore` the validated object of `{"i": 1, "j": 2}`
carries exactly the field name `i`. -/
theorem extra_keys_policy_two_policies_witness :
    validate_value (.vdict [("z", .vint 5)])
        (Ty.composite "Y" [Fld.mk "i" Ty.intT ⟨none, none, true, none⟩] .forbid) =
      .error (.mk (Ty.composite "Y" [Fld.mk "i" Ty.intT ⟨none, none, true, none⟩] .forbid)
        (some (.vdict [("z", .vint 5)])) [] (some (unexpected_kw_msg "Y" "z")) []) ∧
    [("i", Value.vint 1)].map Prod.fst =
      [Fld.mk "i" Ty.intT ⟨none, none, true, none⟩].map fld_name := by
  constructor
  · exact extra_keys_policy_two_policies.1 "Y" [Fld.mk "i" Ty.intT ⟨none, none, true, none⟩]
      "z" (.vint 5) []
      (by intro f hf; simp only [List.mem_singleton] at hf; subst hf; simp [fld_name])
      (by intro f hf; simp only [List.mem_singleton] at hf; subst hf; simp [fld_meta])
  · exact extra_keys_policy_two_policies.2 "Y" [Fld.mk "i" Ty.intT ⟨none, none, true, none⟩]
      [("i", .vint 1), ("j", .vint 2)] [("i", .vint 1)]
      (by simp [validate_value, validate_fields, field_raw, field_lookup, List.lookup,
        extra_entries, forbid_fail, fld_name, fld_meta, int_of_value])

/-- C10 (confirmed): for a `Strict` constraint built from a single
non-union class `T` (whose `__post_init__` flattening yields `[T]`),
the `before` hook returns the value unchanged exactly when the value's
runtime class is `T` itself — a subclass instance does not pass — and
otherwise raises `invalid value for T`; in particular
`validate(True, Annotated[int, Strict(int)])` raises even though
Python's `bool` is a subclass of `int`. -/
theorem strict_exact_type :
    (∀ (tp : PyType) (v : Value),
      (strict_before [tp] v = .ok v ↔ type_of v = tp) ∧
      (type_of v ≠ tp → strict_before [tp] v = .error (strict_err_msg [tp]))) ∧
    validate_value (.vbool true) (Ty.annotated Ty.intT [MetaC.strictM [PyType.intP]]) =
      .error (.mk (Ty.annotated Ty.intT [MetaC.strictM [PyType.intP]]) (some (.vbool true)) []
        (some (strict_err_msg [PyType.intP])) []) := by
  constructor
  · intro tp v
    by_cases hc : type_of v = tp
    · refine ⟨⟨fun _ => hc, fun _ => ?_⟩, fun hne => absurd hc hne⟩
      simp [strict_before, isinstance, hc]
    · have herr : strict_before [tp] v = .error (strict_err_msg [tp]) := by
        simp [strict_before, isinstance, hc]
      refine ⟨⟨fun hok => ?_, fun heq => absurd heq hc⟩, fun _ => herr⟩
      rw [herr] at hok
      exact absurd hok (by simp)
  · simp [validate_value, before_hooks, meta_before, strict_before, isinstance, type_of]

/-- C10 (witness): the exact-class test at concrete inputs — a string
passes `Strict(str)` unchanged, an int fails `Strict(float)`. -/
theorem strict_exact_type_witness :
    strict_before [PyType.strP] (.vstr "ab") = .ok (.vstr "ab") ∧
    strict_before [PyType.floatP] (.vint 3) = .error (strict_err_msg [PyType.floatP]) :=
  ⟨(strict_exact_type.1 PyType.strP (.vstr "ab")).1.mpr rfl,
   (strict_exact_type.1 PyType.floatP (.vint 3)).2 (by simp [type_of])⟩
